import Mathlib

/-!
Shallow embedding of `unicycle/store.py` (the `unicycle` state-store
library) and proofs about its dispatch, subscription, and composition
machinery.

Python counterparts are named in each doc comment.  Machine-level details
that do not affect the verified properties (the `anyio.Event` wake signal,
the async scheduling of subscription consumers) are erased: a
`Subscription` is its strategy plus its buffered notifications, and the
blocking `__anext__` is embedded as a read that is only defined on a
nonempty buffer.
-/

namespace Unicycle

variable {StateT ActionT : Type}

/-- `SubscriptionStrategy` from `store.py`: message strategy for a
subscription (`LATEST` or `EVERY`). -/
inductive SubscriptionStrategy where
  | latest
  | every
  deriving DecidableEq

/-- `Subscription` from `store.py`.  Its buffer `_queue` is a
`collections.deque` created with `maxlen=1` when the strategy is `LATEST`
and with no bound when it is `EVERY`.  The `_notification_event` wake
signal carries no data and only affects task scheduling, so the embedded
state is the strategy together with the queue contents (oldest first). -/
structure Subscription (StateT ActionT : Type) where
  strategy : SubscriptionStrategy
  queue : List (StateT × ActionT)
  deriving DecidableEq

/-- `Subscription._notify`: `self._queue.append((next_state, next_action))`.
Appending to a deque whose `maxlen` is 1 discards the previously buffered
item, so a `LATEST` buffer always ends up holding exactly the new
notification; an `EVERY` buffer (no `maxlen`) grows at the tail. -/
def Subscription.notify (sub : Subscription StateT ActionT) (next_state : StateT)
    (next_action : ActionT) : Subscription StateT ActionT :=
  match sub.strategy with
  | .latest => { sub with queue := [(next_state, next_action)] }
  | .every => { sub with queue := sub.queue ++ [(next_state, next_action)] }

/-- `Subscription.__anext__` on a nonempty buffer: `self._queue.popleft()`,
returning the oldest buffered notification.  On an empty buffer the
coroutine suspends awaiting the wake event; the synchronous embedding
returns `none` there. -/
def Subscription.readNext (sub : Subscription StateT ActionT) :
    Option ((StateT × ActionT) × Subscription StateT ActionT) :=
  match sub.queue with
  | [] => none
  | n :: rest => some (n, { sub with queue := rest })

/-- Reading a subscription up to `n` times (`async for`, stopping when the
buffer empties): the notifications read, oldest first, and the remaining
subscription. -/
def Subscription.readMany :
    Nat → Subscription StateT ActionT →
      List (StateT × ActionT) × Subscription StateT ActionT
  | 0, sub => ([], sub)
  | Nat.succ n, sub =>
    match sub.readNext with
    | none => ([], sub)
    | some (x, sub') =>
      let rest := Subscription.readMany n sub'
      (x :: rest.1, rest.2)

/-- One entry of `Store._reducers`, i.e. a pair
`(getattr(member, "__action_type__"), member)`.  The registered action
type is embedded as its decidable `isinstance` test `action_type`; the bound
handler, which reads `self.state` and returns the new state, is embedded
as `reduce` taking the store's current state explicitly. -/
structure ReducerEntry (StateT ActionT : Type) where
  action_type : ActionT → Bool
  reduce : StateT → ActionT → StateT

/-- `Store` from `store.py`: the current `state`, the reducer registry
`_reducers` built once in `__init__`, and `_subscriptions` — a `dict`
whose keys (in insertion order) are the live subscriptions. -/
structure Store (StateT ActionT : Type) where
  state : StateT
  reducers : List (ReducerEntry StateT ActionT)
  subscriptions : List (Subscription StateT ActionT)

/-- `Store._compute_state`: iterate `self._reducers` in order; for each
entry whose action type matches, call the handler (which sees the current,
already reassigned state) and commit its result with `_set_state`
immediately, before the next entry is examined. -/
def computeState (reducers : List (ReducerEntry StateT ActionT)) (state : StateT)
    (action : ActionT) : StateT :=
  reducers.foldl (fun s e => if e.action_type action then e.reduce s action else s) state

/-- `Store.dispatch`: run `_compute_state`, then notify every live
subscription with `(state, action)`, then return the state.  The result is
the updated store paired with the returned state. -/
def Store.dispatch (st : Store StateT ActionT) (action : ActionT) :
    Store StateT ActionT × StateT :=
  let s := computeState st.reducers st.state action
  ({ st with
      state := s
      subscriptions := st.subscriptions.map fun sub => sub.notify s action },
    s)

/-- Dispatching a sequence of actions, left to right. -/
def Store.dispatchAll (st : Store StateT ActionT) (actions : List ActionT) :
    Store StateT ActionT :=
  actions.foldl (fun s a => (s.dispatch a).1) st

/-- The `(state, action)` pairs that dispatching `actions` delivers to the
live subscriptions, in dispatch order. -/
def Store.notificationLog : Store StateT ActionT → List ActionT → List (StateT × ActionT)
  | _, [] => []
  | st, a :: rest =>
    ((st.dispatch a).1.state, a) :: (st.dispatch a).1.notificationLog rest

/-! ### A concrete store: the counter of the test suite

`CounterStore` from `tests/test_store.py`: integer state, an `increment`
reducer for `Increment` and a `decrement` reducer for `Decrement`.  The
extra `noop` action matches no registered reducer. -/

inductive CounterAction where
  | increment
  | decrement
  | noop
  deriving DecidableEq

/-- `CounterStore.increment`, registered for `Increment`. -/
def incrementEntry : ReducerEntry Int CounterAction where
  action_type := fun a => match a with | .increment => true | _ => false
  reduce := fun s _ => s + 1

/-- `CounterStore.decrement`, registered for `Decrement`. -/
def decrementEntry : ReducerEntry Int CounterAction where
  action_type := fun a => match a with | .decrement => true | _ => false
  reduce := fun s _ => s - 1

/-- A freshly constructed `CounterStore()`: state `0`, both reducers, no
subscriptions. -/
def counterStore : Store Int CounterAction where
  state := 0
  reducers := [incrementEntry, decrementEntry]
  subscriptions := []

/-! ### Basic dispatch lemmas -/

theorem dispatch_reducers_eq (st : Store StateT ActionT) (a : ActionT) :
    (st.dispatch a).1.reducers = st.reducers := rfl

theorem dispatch_fst_state (st : Store StateT ActionT) (a : ActionT) :
    (st.dispatch a).1.state = computeState st.reducers st.state a := rfl

theorem dispatch_snd_eq_state (st : Store StateT ActionT) (a : ActionT) :
    (st.dispatch a).2 = (st.dispatch a).1.state := rfl

theorem computeState_cons (e : ReducerEntry StateT ActionT)
    (es : List (ReducerEntry StateT ActionT)) (s : StateT) (a : ActionT) :
    computeState (e :: es) s a
      = computeState es (if e.action_type a then e.reduce s a else s) a := rfl

theorem computeState_no_match (reducers : List (ReducerEntry StateT ActionT))
    (s : StateT) (a : ActionT) (h : ∀ e ∈ reducers, e.action_type a = false) :
    computeState reducers s a = s := by
  induction reducers with
  | nil => rfl
  | cons e es ih =>
    rw [computeState_cons, h e (List.mem_cons_self e es)]
    exact ih fun e' he' => h e' (List.mem_cons_of_mem e he')

theorem dispatchAll_reducers_eq (actions : List ActionT) (st : Store StateT ActionT) :
    (st.dispatchAll actions).reducers = st.reducers := by
  induction actions generalizing st with
  | nil => rfl
  | cons a rest ih => exact ih ((st.dispatch a).1)

theorem dispatchAll_state (actions : List ActionT) (st : Store StateT ActionT) :
    (st.dispatchAll actions).state
      = actions.foldl (fun s a => computeState st.reducers s a) st.state := by
  induction actions generalizing st with
  | nil => rfl
  | cons a rest ih => exact ih ((st.dispatch a).1)

/-- C1: the state after any sequence of dispatches is the left fold of
`_compute_state` over the actions; within one dispatch the registry is
walked in registration order, each matching entry's result replacing the
working state immediately (so the next entry sees it), and an action that
matches no entry leaves the state unchanged. -/
theorem dispatch_is_left_fold (st : Store StateT ActionT) (actions : List ActionT) :
    (st.dispatchAll actions).state
        = actions.foldl (fun s a => computeState st.reducers s a) st.state
      ∧ (∀ (e : ReducerEntry StateT ActionT) es s a,
          computeState (e :: es) s a
            = computeState es (if e.action_type a then e.reduce s a else s) a)
      ∧ ∀ s a, (∀ e ∈ st.reducers, e.action_type a = false) →
          computeState st.reducers s a = s :=
  ⟨dispatchAll_state actions st,
   fun e es s a => computeState_cons e es s a,
   fun s a h => computeState_no_match st.reducers s a h⟩

theorem dispatch_is_left_fold_witness :
    (counterStore.dispatchAll
        [CounterAction.increment, CounterAction.increment, CounterAction.decrement]).state = 1
      ∧ computeState counterStore.reducers 5 CounterAction.noop = 5 := by
  have h := dispatch_is_left_fold counterStore
    [CounterAction.increment, CounterAction.increment, CounterAction.decrement]
  exact ⟨h.1.trans (by decide), h.2.2 5 CounterAction.noop (by decide)⟩

/-- C2: `dispatch` returns the store's resulting state, and every live
subscription (each position of `_subscriptions`) receives exactly the
notification `(finalState, action)` — including when the action matches no
reducer, in which case the final state equals the pre-dispatch state. -/
theorem dispatch_notifies_all (st : Store StateT ActionT) (a : ActionT) :
    (st.dispatch a).2 = (st.dispatch a).1.state
      ∧ (∀ i : Nat, (st.dispatch a).1.subscriptions[i]?
          = (st.subscriptions[i]?).map fun sub => sub.notify ((st.dispatch a).1.state) a)
      ∧ ((∀ e ∈ st.reducers, e.action_type a = false) → (st.dispatch a).1.state = st.state) :=
  ⟨rfl,
   fun i => by simp [Store.dispatch],
   fun h => computeState_no_match st.reducers st.state a h⟩

/-- `CounterStore` with a single fresh `EVERY` subscription attached. -/
def counterStoreEverySub : Store Int CounterAction :=
  { counterStore with subscriptions := [⟨.every, []⟩] }

theorem dispatch_notifies_all_witness :
    (counterStoreEverySub.dispatch CounterAction.increment).2 = 1
      ∧ (counterStoreEverySub.dispatch CounterAction.increment).1.subscriptions[0]?
          = some ⟨.every, [((1 : Int), CounterAction.increment)]⟩
      ∧ (counterStoreEverySub.dispatch CounterAction.noop).1.state = 0 := by
  have h := dispatch_notifies_all counterStoreEverySub CounterAction.increment
  have hn := dispatch_notifies_all counterStoreEverySub CounterAction.noop
  refine ⟨by decide, ?_, (hn.2.2 (by decide)).trans rfl⟩
  rw [h.2.1 0]
  decide

/-! ### Subscription buffers across a sequence of dispatches -/

/-- Folding a list of delivered notifications into a subscription's
buffer, oldest first. -/
def Subscription.notifyAll (sub : Subscription StateT ActionT)
    (log : List (StateT × ActionT)) : Subscription StateT ActionT :=
  log.foldl (fun s n => s.notify n.1 n.2) sub

theorem notify_of_latest (sub : Subscription StateT ActionT) (s : StateT) (a : ActionT)
    (h : sub.strategy = .latest) :
    sub.notify s a = { sub with queue := [(s, a)] } := by
  obtain ⟨strat, q⟩ := sub
  cases h
  rfl

theorem notify_of_every (sub : Subscription StateT ActionT) (s : StateT) (a : ActionT)
    (h : sub.strategy = .every) :
    sub.notify s a = { sub with queue := sub.queue ++ [(s, a)] } := by
  obtain ⟨strat, q⟩ := sub
  cases h
  rfl

theorem notify_strategy (sub : Subscription StateT ActionT) (s : StateT) (a : ActionT) :
    (sub.notify s a).strategy = sub.strategy := by
  obtain ⟨strat, q⟩ := sub
  cases strat <;> rfl

theorem dispatchAll_subscriptions (actions : List ActionT) (st : Store StateT ActionT)
    (i : Nat) (sub : Subscription StateT ActionT)
    (hsub : st.subscriptions[i]? = some sub) :
    (st.dispatchAll actions).subscriptions[i]?
      = some (sub.notifyAll (st.notificationLog actions)) := by
  induction actions generalizing st sub with
  | nil => exact hsub
  | cons a rest ih =>
    have h1 : (st.dispatch a).1.subscriptions[i]?
        = some (sub.notify ((st.dispatch a).1.state) a) := by
      simp [Store.dispatch, hsub]
    exact ih ((st.dispatch a).1) _ h1

theorem notifyAll_of_latest (log : List (StateT × ActionT))
    (sub : Subscription StateT ActionT) (hstrat : sub.strategy = .latest) :
    sub.notifyAll log
      = { sub with queue := log.getLast?.elim sub.queue fun n => [n] } := by
  induction log generalizing sub with
  | nil => rfl
  | cons p log' ih =>
    have step : sub.notifyAll (p :: log')
        = Subscription.notifyAll { sub with queue := [p] } log' := by
      show Subscription.notifyAll (sub.notify p.1 p.2) log' = _
      rw [notify_of_latest sub p.1 p.2 hstrat]
    rw [step, ih { sub with queue := [p] } hstrat]
    cases log' with
    | nil => rfl
    | cons q log'' => rfl

theorem notifyAll_of_every (log : List (StateT × ActionT))
    (sub : Subscription StateT ActionT) (hstrat : sub.strategy = .every) :
    sub.notifyAll log = { sub with queue := sub.queue ++ log } := by
  induction log generalizing sub with
  | nil =>
    rw [List.append_nil]
    rfl
  | cons p log' ih =>
    have step : sub.notifyAll (p :: log')
        = Subscription.notifyAll { sub with queue := sub.queue ++ [p] } log' := by
      show Subscription.notifyAll (sub.notify p.1 p.2) log' = _
      rw [notify_of_every sub p.1 p.2 hstrat]
    rw [step, ih { sub with queue := sub.queue ++ [p] } hstrat]
    simp

theorem notificationLog_length (actions : List ActionT) (st : Store StateT ActionT) :
    (st.notificationLog actions).length = actions.length := by
  induction actions generalizing st with
  | nil => rfl
  | cons a rest ih => simpa [Store.notificationLog] using ih ((st.dispatch a).1)

theorem readMany_take (n : Nat) (sub : Subscription StateT ActionT) :
    Subscription.readMany n sub
      = (sub.queue.take n, { sub with queue := sub.queue.drop n }) := by
  induction n generalizing sub with
  | zero => rfl
  | succ n ih =>
    obtain ⟨strat, q⟩ := sub
    cases q with
    | nil => rfl
    | cons x rest =>
      simp [Subscription.readMany, Subscription.readNext, ih]

/-- C3: pushing a notification into a `LATEST` buffer leaves exactly the
new item (so the buffer never holds more than one pending notification and
a push while one is pending overwrites it), and for a `LATEST` subscriber
that never reads, `N` dispatches leave pending exactly the last — i.e. the
`N`-th — of the `N` delivered notifications. -/
theorem latest_buffer_keeps_only_newest (st : Store StateT ActionT)
    (actions : List ActionT) (i : Nat) (sub : Subscription StateT ActionT)
    (hsub : st.subscriptions[i]? = some sub) (hstrat : sub.strategy = .latest) :
    (∀ (sub' : Subscription StateT ActionT) (s : StateT) (a : ActionT),
        sub'.strategy = .latest → (sub'.notify s a).queue = [(s, a)])
      ∧ (st.dispatchAll actions).subscriptions[i]?
          = some { sub with
              queue := (st.notificationLog actions).getLast?.elim sub.queue fun n => [n] }
      ∧ (st.notificationLog actions).length = actions.length :=
  ⟨fun sub' s a h => by rw [notify_of_latest sub' s a h],
   by rw [dispatchAll_subscriptions actions st i sub hsub,
          notifyAll_of_latest (st.notificationLog actions) sub hstrat],
   notificationLog_length actions st⟩

/-- `CounterStore` with a single fresh `LATEST` subscription attached. -/
def counterStoreLatestSub : Store Int CounterAction :=
  { counterStore with subscriptions := [⟨.latest, []⟩] }

theorem latest_buffer_keeps_only_newest_witness :
    (counterStoreLatestSub.dispatchAll
        [CounterAction.increment, CounterAction.increment, CounterAction.decrement]).subscriptions[0]?
      = some ⟨.latest, [((1 : Int), CounterAction.decrement)]⟩ := by
  have h := latest_buffer_keeps_only_newest counterStoreLatestSub
    [CounterAction.increment, CounterAction.increment, CounterAction.decrement]
    0 ⟨.latest, []⟩ rfl rfl
  exact h.2.1.trans (by decide)

/-- C4: an `EVERY` buffer accumulates, in dispatch order and with nothing
dropped, every notification delivered while the subscription is live: for
a fresh `EVERY` subscriber, `N` dispatches leave exactly the `N`
notifications buffered, and `N` subsequent reads return exactly those `N`
notifications, oldest first. -/
theorem every_buffer_fifo (st : Store StateT ActionT)
    (actions : List ActionT) (i : Nat) (sub : Subscription StateT ActionT)
    (hsub : st.subscriptions[i]? = some sub) (hstrat : sub.strategy = .every)
    (hfresh : sub.queue = []) :
    (st.dispatchAll actions).subscriptions[i]?
        = some { sub with queue := st.notificationLog actions }
      ∧ (st.notificationLog actions).length = actions.length
      ∧ (Subscription.readMany actions.length
          { sub with queue := st.notificationLog actions }).1
          = st.notificationLog actions := by
  refine ⟨?_, notificationLog_length actions st, ?_⟩
  · rw [dispatchAll_subscriptions actions st i sub hsub,
        notifyAll_of_every (st.notificationLog actions) sub hstrat, hfresh]
    simp
  · rw [readMany_take]
    simp [← notificationLog_length actions st]

theorem every_buffer_fifo_witness :
    (counterStoreEverySub.dispatchAll
        [CounterAction.increment, CounterAction.increment, CounterAction.decrement]).subscriptions[0]?
        = some ⟨.every, [((1 : Int), CounterAction.increment),
            ((2 : Int), CounterAction.increment), ((1 : Int), CounterAction.decrement)]⟩
      ∧ (Subscription.readMany 3
          (⟨.every, [((1 : Int), CounterAction.increment), ((2 : Int), CounterAction.increment),
            ((1 : Int), CounterAction.decrement)]⟩ : Subscription Int CounterAction)).1
          = [((1 : Int), CounterAction.increment), ((2 : Int), CounterAction.increment),
            ((1 : Int), CounterAction.decrement)] := by
  have h := every_buffer_fifo counterStoreEverySub
    [CounterAction.increment, CounterAction.increment, CounterAction.decrement]
    0 ⟨.every, []⟩ rfl rfl rfl
  exact ⟨h.1.trans (by decide), (by decide : _ = _)⟩

/-! ### The `subscribe` context manager (C5) -/

/-- `Store.subscribe` is a `contextlib.contextmanager` generator:

```
sub = Subscription(strategy=strategy)
self._subscriptions[sub] = True
yield sub
del self._subscriptions[sub]
```

`subscribeScope st strategy body` runs `with st.subscribe(strategy) as sub:
body`.  The fresh subscription is inserted before the `yield` (`dict`
insertion appends the key, so its position is the old length, passed to
`body` as the subscription's index).  `body` returns the store as left by
the block together with `true` iff the block raised.  When the block
finishes normally — including by early return — the context manager resumes
the generator and the `del` statement removes the subscription.  When the
block raises, `contextlib.contextmanager.__exit__` throws the exception
into the generator at the `yield`; the generator body has no `try/finally`,
so the exception propagates out of the generator and the `del` statement
after the `yield` never executes: the subscription stays registered. -/
def subscribeScope (st : Store StateT ActionT) (strategy : SubscriptionStrategy)
    (body : Store StateT ActionT → Nat → Store StateT ActionT × Bool) :
    Store StateT ActionT :=
  let idx := st.subscriptions.length
  let entered := { st with subscriptions := st.subscriptions ++ [⟨strategy, []⟩] }
  let result := body entered idx
  if result.2 then result.1
  else { result.1 with subscriptions := result.1.subscriptions.eraseIdx idx }

/-- C5 fails on the code: when the scope body raises, the `del` after the
`yield` in `subscribe` is skipped (there is no `try/finally`), so the
subscription is not removed on that exit path and a subsequent dispatch
still delivers a notification to it.  Here the body raises immediately and
the store is dispatched once afterwards: the supposedly closed subscription
ends up holding the new notification `(1, increment)`. -/
theorem subscribe_error_exit_still_notifies :
    ((subscribeScope counterStore SubscriptionStrategy.every fun st _ => (st, true)).dispatch
        CounterAction.increment).1.subscriptions
      = [⟨.every, [((1 : Int), CounterAction.increment)]⟩] := by decide

/-! ### Construction and the reducer guard (C6, C7) -/

/-- `Store._initialize_state`, called from `Store.__init__`.  `initial_state`
is `none` when the argument was omitted (the `...` default); `classDefault`
is `some d` when the store class declares a class-level `state = d`
attribute (`hasattr(self, "state")` before any assignment).  The source:

```
if initial_state != Ellipsis:
    self._set_state(initial_state)
elif not hasattr(self, "state"):
    raise TypeError("Initial state must be provided")
```

A supplied value is set (shadowing any class default); otherwise the class
default, if any, stays in effect; otherwise construction raises. -/
def initializeState (classDefault : Option StateT) (initial_state : Option StateT) :
    Except String StateT :=
  match initial_state with
  | some s => Except.ok s
  | none =>
    match classDefault with
    | some d => Except.ok d
    | none => Except.error "Initial state must be provided"

/-- C6: constructing a store with neither a supplied initial state nor a
class-level default fails with the configuration error, while a supplied
initial state always succeeds and overrides any class-level default. -/
theorem initializeState_spec (d s : StateT) :
    initializeState (none : Option StateT) none
        = Except.error "Initial state must be provided"
      ∧ initializeState (some d) (some s) = Except.ok s
      ∧ initializeState none (some s) = Except.ok s
      ∧ initializeState (some d) none = Except.ok d :=
  ⟨rfl, rfl, rfl, rfl⟩

/-- The `_wrapper` closure installed by the `@reducer` decorator around a
handler.  `is_store` is `isinstance(self, Store)`; `ok_to_call` is the
`__dispatch__` keyword argument popped from the call with default `False` —
`Store._compute_state` is the single call site in the library that passes
`__dispatch__=True`, so `ok_to_call = true` identifies the store's internal
dispatch path; `func` is the wrapped handler applied to its arguments.
The guards run in source order: the non-Store check, then the dispatch
check, then the call. -/
def reducerWrapperCall {R : Type} (is_store ok_to_call : Bool) (func : Unit → R) :
    Except String R :=
  if is_store = false then
    Except.error "@reducer must be applied to methods of a Store"
  else if ok_to_call = false then
    Except.error "Do not call reducers directly; use Store.dispatch"
  else Except.ok (func ())

/-- C7: a decorated handler invoked without the `__dispatch__` token that
only the store's internal dispatch call supplies fails with the usage error
telling the caller to use `dispatch`; a handler decorated on something that
is not a `Store` fails with a usage error whenever it is called, dispatch
token or not; and the internal dispatch path itself is let through to the
wrapped handler. -/
theorem reducerWrapperCall_guard {R : Type} (func : Unit → R) :
    reducerWrapperCall true false func
        = Except.error "Do not call reducers directly; use Store.dispatch"
      ∧ (∀ b : Bool, reducerWrapperCall false b func
          = Except.error "@reducer must be applied to methods of a Store")
      ∧ reducerWrapperCall true true func = Except.ok (func ()) :=
  ⟨rfl, fun _ => rfl, rfl⟩

theorem initializeState_spec_witness :
    initializeState (none : Option Int) none
        = Except.error "Initial state must be provided"
      ∧ initializeState (some (7 : Int)) (some 42) = Except.ok 42
      ∧ initializeState (some (7 : Int)) none = Except.ok 7 :=
  ⟨(initializeState_spec (7 : Int) 42).1, (initializeState_spec (7 : Int) 42).2.1,
   (initializeState_spec (7 : Int) 42).2.2.2⟩

theorem reducerWrapperCall_guard_witness :
    reducerWrapperCall true false (fun _ => (0 : Int))
        = Except.error "Do not call reducers directly; use Store.dispatch"
      ∧ reducerWrapperCall false true (fun _ => (0 : Int))
        = Except.error "@reducer must be applied to methods of a Store"
      ∧ reducerWrapperCall true true (fun _ => (0 : Int)) = Except.ok 0 :=
  ⟨(reducerWrapperCall_guard fun _ => (0 : Int)).1,
   (reducerWrapperCall_guard fun _ => (0 : Int)).2.1 true,
   (reducerWrapperCall_guard fun _ => (0 : Int)).2.2⟩

/-! ### A raising reducer (C9) -/

/-- A reducer registry entry whose handler may raise: `Except.error e`
embeds a raised exception `e`. -/
structure ExnReducerEntry (StateT ActionT ErrT : Type) where
  action_type : ActionT → Bool
  reduce : StateT → ActionT → Except ErrT StateT

/-- `Store._compute_state` when handlers may raise.  Each successful
handler's result is committed with `_set_state` before the next entry is
examined; a raising handler aborts the loop and the exception propagates
out of `dispatch`.  The result is the store's state when the loop stops
(the last committed value) together with the propagated exception, if
any. -/
def computeStateExn (entries : List (ExnReducerEntry StateT ActionT ErrT))
    (state : StateT) (action : ActionT) : StateT × Option ErrT :=
  match entries with
  | [] => (state, none)
  | e :: rest =>
    if e.action_type action then
      match e.reduce state action with
      | Except.ok s' => computeStateExn rest s' action
      | Except.error err => (state, some err)
    else computeStateExn rest state action

/-- C9: if, after the earlier entries ran without raising and committed the
working state `s₁`, a matching reducer raises, then the whole dispatch
stops with that exception propagating and the store's state is exactly
`s₁` — the results of the earlier matching reducers stay committed, there
is no rollback to the pre-dispatch state, and the entries after the
raising one never run. -/
theorem reducer_raise_no_rollback {ErrT : Type}
    (pre post : List (ExnReducerEntry StateT ActionT ErrT))
    (e : ExnReducerEntry StateT ActionT ErrT)
    (s s₁ : StateT) (a : ActionT) (err : ErrT)
    (hpre : computeStateExn pre s a = (s₁, none))
    (hmatch : e.action_type a = true)
    (hraise : e.reduce s₁ a = Except.error err) :
    computeStateExn (pre ++ e :: post) s a = (s₁, some err) := by
  induction pre generalizing s with
  | nil =>
    have hpre' : (s, (none : Option ErrT)) = (s₁, none) := hpre
    injection hpre' with h1 _
    subst h1
    show computeStateExn (e :: post) s a = (s, some err)
    rw [computeStateExn, if_pos hmatch, hraise]
  | cons e₀ rest ih =>
    rw [List.cons_append, computeStateExn]
    rw [computeStateExn] at hpre
    by_cases h₀ : e₀.action_type a
    · rw [if_pos h₀] at hpre ⊢
      cases hr : e₀.reduce s a with
      | ok s' =>
        rw [hr] at hpre
        exact ih s' hpre
      | error err₀ => simp [hr] at hpre
    · rw [if_neg h₀] at hpre ⊢
      exact ih s hpre

/-- `CounterStore.increment` as a non-raising fallible entry. -/
def incrementExnEntry : ExnReducerEntry Int CounterAction String where
  action_type := fun a => match a with | .increment => true | _ => false
  reduce := fun s _ => Except.ok (s + 1)

/-- A reducer for `Increment` that always raises. -/
def raisingExnEntry : ExnReducerEntry Int CounterAction String where
  action_type := fun a => match a with | .increment => true | _ => false
  reduce := fun _ _ => Except.error "boom"

theorem reducer_raise_no_rollback_witness :
    computeStateExn [incrementExnEntry, raisingExnEntry, incrementExnEntry]
        0 CounterAction.increment = (1, some "boom") :=
  reducer_raise_no_rollback [incrementExnEntry] [incrementExnEntry]
    raisingExnEntry 0 1 CounterAction.increment "boom" rfl rfl rfl

/-! ### Combined stores (C8) -/

variable {SubstateT ParentT : Type}

/-- A store produced by the `combined_store(combine_states, **kwargs)`
decorator.  `substores` is `self._substores`, the named child stores in
the declaration order of the keyword arguments (`dict` preserves insertion
order); `combine_states` receives the child states by name. -/
structure CombinedStore (SubstateT ParentT ActionT : Type) where
  combine_states : List (String × SubstateT) → ParentT
  substores : List (String × Store SubstateT ActionT)
  state : ParentT
  subscriptions : List (Subscription ParentT ActionT)

/-- `Store.dispatch` on a combined store, whose `_compute_state` is the
decorator's override:

```
substates = {
    name: substore.dispatch(action)
    for name, substore in self._substores.items()
}
self._set_state(combine_states(**substates))
```

Each child receives the identical action through its own `dispatch`, in
declaration order; the parent's state becomes the combination of the
children's resulting states by name; then the inherited `dispatch` body
notifies the parent's own subscriptions and returns the state. -/
def CombinedStore.dispatch (cs : CombinedStore SubstateT ParentT ActionT)
    (action : ActionT) : CombinedStore SubstateT ParentT ActionT × ParentT :=
  let results := cs.substores.map fun c => (c.1, c.2.dispatch action)
  let s := cs.combine_states (results.map fun r => (r.1, r.2.2))
  ({ cs with
      substores := results.map fun r => (r.1, r.2.1)
      state := s
      subscriptions := cs.subscriptions.map fun sub => sub.notify s action },
    s)

/-- C8: a combined store's dispatch sends the identical action to every
child store, in the declaration order of the child map (each child of the
resulting store is exactly the corresponding old child after dispatching
that same action), and immediately after the dispatch the parent's state
is exactly `combine_states` applied, by name, to the children's current
states; `dispatch` returns that state. -/
theorem combined_dispatch_invariant (cs : CombinedStore SubstateT ParentT ActionT)
    (action : ActionT) :
    (cs.dispatch action).1.substores
        = cs.substores.map (fun c => (c.1, (c.2.dispatch action).1))
      ∧ (cs.dispatch action).1.state
          = cs.combine_states
              ((cs.dispatch action).1.substores.map fun c => (c.1, c.2.state))
      ∧ (cs.dispatch action).2 = (cs.dispatch action).1.state := by
  have hsub : (cs.dispatch action).1.substores
      = cs.substores.map fun c => (c.1, (c.2.dispatch action).1) := by
    show (cs.substores.map fun c => (c.1, c.2.dispatch action)).map
        (fun r => (r.1, r.2.1)) = _
    rw [List.map_map]
    rfl
  refine ⟨hsub, ?_, rfl⟩
  rw [hsub, List.map_map]
  show cs.combine_states ((cs.substores.map fun c => (c.1, c.2.dispatch action)).map
      fun r => (r.1, r.2.2)) = _
  rw [List.map_map]
  rfl

/-- `MirrorStore.increment` from the tests: `Increment` decrements. -/
def mirrorIncrementEntry : ReducerEntry Int CounterAction where
  action_type := fun a => match a with | .increment => true | _ => false
  reduce := fun s _ => s - 1

/-- `MirrorStore.decrement` from the tests: `Decrement` increments. -/
def mirrorDecrementEntry : ReducerEntry Int CounterAction where
  action_type := fun a => match a with | .decrement => true | _ => false
  reduce := fun s _ => s + 1

/-- A freshly constructed `MirrorStore()`. -/
def mirrorStore : Store Int CounterAction where
  state := 0
  reducers := [mirrorIncrementEntry, mirrorDecrementEntry]
  subscriptions := []

/-- `CombinedStore` of the tests: `counter=CounterStore, mirror=MirrorStore`,
combined by a combiner keeping the named states (the `CombinedState` named
tuple, embedded as the name-indexed association list itself). -/
def combinedCounterMirror : CombinedStore Int (List (String × Int)) CounterAction where
  combine_states := id
  substores := [("counter", counterStore), ("mirror", mirrorStore)]
  state := [("counter", 0), ("mirror", 0)]
  subscriptions := []

theorem combined_dispatch_invariant_witness :
    (combinedCounterMirror.dispatch CounterAction.increment).2
      = [("counter", (1 : Int)), ("mirror", (-1 : Int))] := by
  have h := combined_dispatch_invariant combinedCounterMirror CounterAction.increment
  exact h.2.2.trans (h.2.1.trans (by decide))

/-! ### Registry construction order (C10) -/

/-- One `(name, value)` member of the store instance as enumerated during
`Store.__init__`: `entry` is `some` exactly when the member is callable
and carries the `__action_type__` attribute set by the `reducer`
decorator. -/
structure Member (StateT ActionT : Type) where
  name : String
  entry : Option (ReducerEntry StateT ActionT)

instance : DecidableRel fun m₁ m₂ : Member StateT ActionT => m₁.name ≤ m₂.name :=
  fun m₁ m₂ => inferInstanceAs (Decidable (m₁.name ≤ m₂.name))

instance : IsTotal (Member StateT ActionT) fun m₁ m₂ => m₁.name ≤ m₂.name :=
  ⟨fun m₁ m₂ => le_total m₁.name m₂.name⟩

instance : IsTrans (Member StateT ActionT) fun m₁ m₂ => m₁.name ≤ m₂.name :=
  ⟨fun _ _ _ h₁ h₂ => le_trans h₁ h₂⟩

/-- `inspect.getmembers(self)`: the instance's members, sorted by ascending
attribute name (`results.sort(key=lambda pair: pair[0])` — a stable sort,
embedded as a stable insertion sort on the name key). -/
def getmembers (members : List (Member StateT ActionT)) :
    List (Member StateT ActionT) :=
  members.insertionSort fun m₁ m₂ => m₁.name ≤ m₂.name

/-- The registry construction in `Store.__init__`: the comprehension keeps,
in `getmembers` order, exactly the members marked by the `reducer`
decorator. -/
def buildReducers (members : List (Member StateT ActionT)) :
    List (ReducerEntry StateT ActionT) :=
  (getmembers members).filterMap Member.entry

/-- C10: the reducer registry is built over the members in ascending
alphabetical order of attribute name (the order `inspect.getmembers`
produces), not in declaration order: the enumeration the registry is
drawn from is sorted by name, and — attribute names being distinct —
any reordering of the declared members yields the identical registry, so
the registry of a store class is deterministic. -/
theorem registry_sorted_by_name (members others : List (Member StateT ActionT))
    (hperm : members.Perm others)
    (hnodup : (members.map Member.name).Nodup) :
    List.Sorted (fun m₁ m₂ : Member StateT ActionT => m₁.name ≤ m₂.name)
        (getmembers members)
      ∧ buildReducers members = buildReducers others := by
  refine ⟨List.sorted_insertionSort _ members, ?_⟩
  have hsortEq : getmembers members = getmembers others := by
    have hperm' : (getmembers members).Perm (getmembers others) :=
      (List.perm_insertionSort _ members).trans
        (hperm.trans (List.perm_insertionSort _ others).symm)
    have hn1 : ((getmembers members).map Member.name).Nodup :=
      (((List.perm_insertionSort _ members).map Member.name).nodup_iff).mpr hnodup
    have hn2 : ((getmembers others).map Member.name).Nodup :=
      ((hperm'.map Member.name).nodup_iff).mp hn1
    have hlt1 : List.Sorted (fun m₁ m₂ : Member StateT ActionT => m₁.name < m₂.name)
        (getmembers members) :=
      ((List.sorted_insertionSort _ members).and (List.pairwise_map.mp hn1)).imp
        fun h => lt_of_le_of_ne h.1 h.2
    have hlt2 : List.Sorted (fun m₁ m₂ : Member StateT ActionT => m₁.name < m₂.name)
        (getmembers others) :=
      ((List.sorted_insertionSort _ others).and (List.pairwise_map.mp hn2)).imp
        fun h => lt_of_le_of_ne h.1 h.2
    haveI : IsAntisymm (Member StateT ActionT) fun m₁ m₂ => m₁.name < m₂.name :=
      ⟨fun a b h₁ h₂ => absurd (lt_trans h₁ h₂) (lt_irrefl _)⟩
    exact List.eq_of_perm_of_sorted hperm' hlt1 hlt2
  rw [buildReducers, buildReducers, hsortEq]

/-- The member `CounterStore.increment` under its attribute name. -/
def incrementMember : Member Int CounterAction := ⟨"increment", some incrementEntry⟩

/-- The member `CounterStore.decrement` under its attribute name. -/
def decrementMember : Member Int CounterAction := ⟨"decrement", some decrementEntry⟩

theorem registry_sorted_by_name_witness :
    List.Sorted (fun m₁ m₂ : Member Int CounterAction => m₁.name ≤ m₂.name)
        (getmembers [incrementMember, decrementMember])
      ∧ buildReducers [incrementMember, decrementMember]
          = buildReducers [decrementMember, incrementMember] :=
  registry_sorted_by_name [incrementMember, decrementMember]
    [decrementMember, incrementMember] (List.Perm.swap _ _ _) (by decide)

end Unicycle
